/-
Verification of the gepare package loader (src/gepare.py).

This file gives a shallow embedding of the configuration-resolution engine
and the origin operations of gepare, and proves the specified properties
about them.  Python values that occur in the program are modelled by the
inductive type `Value`; Python dicts are association lists that keep
insertion order; a `ChainMap` is a list of layers probed in order; raising
is modelled with `Except`; the Python recursion limit is modelled with an
explicit fuel parameter.  Each definition is annotated with the source
function it embeds.
-/
import Mathlib

namespace Gepare

/-- Values of the configuration tree: the Python kinds that occur in the
program (None, bool, int, str, list, set, dict).  TOML input produces
strs, ints, bools, lists and tables; the unit tests also exercise sets.
Dict keys are strings, as everywhere in the program.  Floats, tuples and
frozensets never occur and are not modelled. -/
inductive Value where
  | none  : Value
  | bool  : Bool → Value
  | int   : Int → Value
  | str   : String → Value
  | list  : List Value → Value
  | set   : List Value → Value
  | dict  : List (String × Value) → Value
  deriving Repr

mutual

def decValue (a b : Value) : Decidable (a = b) := by
  cases a <;> cases b <;>
    try (refine isFalse fun h => ?_ ; cases h ; done)
  case none.none => exact isTrue rfl
  case bool.bool x y | int.int x y | str.str x y =>
    exact if h : x = y then isTrue (by rw [h])
      else isFalse (fun hc => by cases hc; exact h rfl)
  case list.list x y | set.set x y =>
    exact match decValueList x y with
      | isTrue h => isTrue (by rw [h])
      | isFalse h => isFalse (fun hc => by cases hc; exact h rfl)
  case dict.dict x y =>
    exact match decValueAList x y with
      | isTrue h => isTrue (by rw [h])
      | isFalse h => isFalse (fun hc => by cases hc; exact h rfl)

def decValueList (xs ys : List Value) : Decidable (xs = ys) :=
  match xs, ys with
  | [], [] => isTrue rfl
  | [], _ :: _ => isFalse (fun h => by cases h)
  | _ :: _, [] => isFalse (fun h => by cases h)
  | x :: xs, y :: ys =>
    match decValue x y with
    | isFalse h => isFalse (fun hc => by cases hc; exact h rfl)
    | isTrue h =>
      match decValueList xs ys with
      | isTrue h2 => isTrue (by rw [h, h2])
      | isFalse h2 => isFalse (fun hc => by cases hc; exact h2 rfl)

def decValueAList (xs ys : List (String × Value)) : Decidable (xs = ys) :=
  match xs, ys with
  | [], [] => isTrue rfl
  | [], _ :: _ => isFalse (fun h => by cases h)
  | _ :: _, [] => isFalse (fun h => by cases h)
  | (k1, v1) :: xs, (k2, v2) :: ys =>
    match decEq k1 k2 with
    | isFalse h => isFalse (fun hc => by cases hc; exact h rfl)
    | isTrue hk =>
      match decValue v1 v2 with
      | isFalse h => isFalse (fun hc => by cases hc; exact h rfl)
      | isTrue hv =>
        match decValueAList xs ys with
        | isTrue ht => isTrue (by rw [hk, hv, ht])
        | isFalse h => isFalse (fun hc => by cases hc; exact h rfl)

end

instance : DecidableEq Value := decValue

deriving instance DecidableEq for Except

/-- A Python dict with string keys, in insertion order. -/
abbrev AList := List (String × Value)

/-- Dict lookup (`d[k]` / `k in d` for present keys). -/
def alookup : AList → String → Option Value
  | [], _ => Option.none
  | (k0, v0) :: rest, k => if k0 = k then some v0 else alookup rest k

/-- Dict assignment `d[k] = v`: replaces in place when the key is present
(keeping its position, as CPython dicts do), appends otherwise. -/
def upsert : AList → String → Value → AList
  | [], k, v => [(k, v)]
  | (k0, v0) :: rest, k, v =>
    if k0 = k then (k0, v) :: rest else (k0, v0) :: upsert rest k v

/-- Python truthiness (`if d:`) for the modelled kinds. -/
def truthy : Value → Bool
  | .none => false
  | .bool b => b
  | .int n => n != 0
  | .str s => !s.data.isEmpty
  | .list l => !l.isEmpty
  | .set l => !l.isEmpty
  | .dict m => !m.isEmpty

/-- `type(a) == type(b)` over the modelled kinds (bool and int are distinct
types in Python, matching the distinct constructors here). -/
def sameType : Value → Value → Bool
  | .none, .none => true
  | .bool _, .bool _ => true
  | .int _, .int _ => true
  | .str _, .str _ => true
  | .list _, .list _ => true
  | .set _, .set _ => true
  | .dict _, .dict _ => true
  | _, _ => false

/-- The apostrophe character, written by code to avoid literal quoting. -/
def sq : String := String.mk [Char.ofNat 39]

mutual

/-- Python `repr` of a value, as used by `str()` on containers.  The
repr-escaping of special characters inside strings is not modelled (no
claim and no configuration in the repository depends on it). -/
def pyRepr : Value → String
  | .none => "None"
  | .bool true => "True"
  | .bool false => "False"
  | .int n => toString n
  | .str s => sq ++ s ++ sq
  | .list l => "[" ++ pyReprSeq l ++ "]"
  | .set [] => "set()"
  | .set l => "\x7b" ++ pyReprSeq l ++ "\x7d"
  | .dict m => "\x7b" ++ pyReprItems m ++ "\x7d"

def pyReprSeq : List Value → String
  | [] => ""
  | [v] => pyRepr v
  | v :: rest => pyRepr v ++ ", " ++ pyReprSeq rest

def pyReprItems : List (String × Value) → String
  | [] => ""
  | [(k, v)] => sq ++ k ++ sq ++ ": " ++ pyRepr v
  | (k, v) :: rest => sq ++ k ++ sq ++ ": " ++ pyRepr v ++ ", " ++ pyReprItems rest

end

/-- `format(v, "")` as used by `str.format_map` and f-strings to render a
substituted value: a string passes through, everything else renders via
`str()`. -/
def pyFormat : Value → String
  | .str s => s
  | v => pyRepr v

/-- `s.endswith(suffix)`. -/
def pyEndswith (s suffix : String) : Bool :=
  suffix.data.isSuffixOf s.data

/-- The `IndexError` raised by indexing a list out of range inside
`ndget`.  It is not among the exceptions the `except (KeyError,
TypeError)` clause catches, so it propagates to the caller of
`ndget`. -/
inductive NdErr where
  | indexError
  deriving Repr, DecidableEq

/-- Python list indexing `l[n]`: a negative index counts from the end; an
index out of range is absent (an `IndexError`). -/
def listIndex (l : List Value) (n : Int) : Option Value :=
  let idx := if n < 0 then n + (l.length : Int) else n
  if 0 ≤ idx ∧ idx < (l.length : Int) then l.get? idx.toNat else Option.none

/-- `ndget` (gepare.py lines 54-64): get from nested dictionaries.  The
loop runs `if k not in t: return default; t = t[k]` inside a
`try ... except (KeyError, TypeError): return default`.  Per
intermediate value:
dict — a present str key descends; an absent or non-str key gives the
default (a non-str hashable key is absent from the str-keyed dicts of
the configuration tree; an unhashable key raises `TypeError`, caught).
list — `k in t` is ELEMENT membership: an int (or bool, which Python
indexes as 0/1) key that equals an element passes the guard, and the
subsequent `t[k]` either descends by position or, when the matching
element sits at no valid index, raises an `IndexError` that the
`except` clause does not catch; any other member key raises a caught
`TypeError` from the indexing, and a non-member key short-circuits —
both give the default.
str, set — the indexing (or, for an unhashable key, the membership
test) raises a caught `TypeError`: default.
scalar — `in` raises a caught `TypeError`: default.
The numeric cross-kind equality of Python bools and ints (`True == 1`)
is not modelled: membership here is structural equality. -/
def ndget : Value → List Value → Value → Except NdErr Value
  | t, [], _ => .ok t
  | .dict m, k :: ks, default =>
    (match k with
     | .str s =>
       (match alookup m s with
        | some v => ndget v ks default
        | Option.none => .ok default)
     | _ => .ok default)
  | .list l, k :: ks, default =>
    (match k with
     | .int n =>
       if Value.int n ∈ l then
         match listIndex l n with
         | some v => ndget v ks default
         | Option.none => .error .indexError
       else .ok default
     | .bool b =>
       if Value.bool b ∈ l then
         match listIndex l (if b then 1 else 0) with
         | some v => ndget v ks default
         | Option.none => .error .indexError
       else .ok default
     | _ => .ok default)
  | _, _ :: _, default => .ok default

/-- The union written `d[k] |= v` on sets: the destination elements
followed by the source elements that are not already present.  CPython
leaves set order unspecified; the theorems about this operation are
stated as membership equivalences. -/
def setUnion (da sa : List Value) : List Value :=
  da ++ sa.filter (fun x => decide (¬ x ∈ da))

/-- The error raised by `ndupdate`: `raise TypeError(k, d[k], v)` carries
the key and the two conflicting values. -/
inductive MergeErr where
  | typeError (key : String) (dv sv : Value)
  deriving Repr, DecidableEq

/-- `ndupdate` (gepare.py lines 66-85): update nested dictionaries.  For
each key of the source: insert when absent; recurse when both values are
dicts (`MutableMapping` × `Mapping`); extend when the destination is a
list (`MutableSequence`) and the source a `Sequence` — which in Python
includes both lists and strs, a str contributing its characters as
one-character strings; union when both are sets; replace when the exact
concrete types coincide; raise `TypeError(k, d[k], v)` otherwise. -/
def ndupdate : AList → AList → Except MergeErr AList
  | d, [] => .ok d
  | d, (k, v) :: rest =>
    match alookup d k with
    | Option.none => ndupdate (d ++ [(k, v)]) rest
    | some dk =>
      match dk, v with
      | .dict dm, .dict vm =>
        match ndupdate dm vm with
        | .error e => .error e
        | .ok m2 => ndupdate (upsert d k (.dict m2)) rest
      | .list dl, .list vl => ndupdate (upsert d k (.list (dl ++ vl))) rest
      | .list dl, .str s =>
        ndupdate (upsert d k (.list (dl ++ s.data.map (fun c => Value.str (String.mk [c]))))) rest
      | .set da, .set sa => ndupdate (upsert d k (.set (setUnion da sa))) rest
      | dkv, vv =>
        if sameType dkv vv then ndupdate (upsert d k vv) rest
        else .error (.typeError k dkv vv)
  termination_by _ s => sizeOf s

/-- The kind combinations `ndupdate` resolves without raising, used to
state its error clause: both dicts, destination list with list or str
source, both sets, or the exact same concrete type. -/
def mergeCompatible : Value → Value → Bool
  | .dict _, .dict _ => true
  | .list _, .list _ => true
  | .list _, .str _ => true
  | .set _, .set _ => true
  | a, b => sameType a b

/-- A `ChainMap`: mapping layers probed in order, first hit wins.  A plain
mapping is the one-layer case. -/
abbrev Layers := List AList

/-- `ChainMap` lookup / `Expander.__contains__` probing. -/
def lookupLayers : Layers → String → Option Value
  | [], _ => Option.none
  | layer :: rest, k =>
    match alookup layer k with
    | some v => some v
    | Option.none => lookupLayers rest k

/-- Errors arising inside expansion: `KeyError` from a missing key,
`ValueError` from a malformed template, and Python `RecursionError` once
the interpreter recursion limit (the fuel) is exhausted. -/
inductive ExpErr where
  | keyError (k : String)
  | valueError
  | recursionError
  deriving Repr, DecidableEq

/-- The scanning loop of `str.format_map` as driven by `Expander`
(gepare.py lines 38-52).  The second list, when present, is the field
name being accumulated (in reverse).  `\x7b\x7b` and `\x7d\x7d` are the
literal-brace escapes; a lone closing brace or an unterminated field is a
`ValueError`.  A field is resolved through `Expander.__getitem__`: a
missing key raises `KeyError`; a str value is recursively expanded by
`exp`; any other value is rendered with `format(v, "")`.  Conversion
(`!r`), format-spec (`:...`) and attribute/index field syntax are not
used by any template in the repository and are not modelled. -/
def formatScan (exp : String → Except ExpErr String) (m : Layers) :
    List Char → Option (List Char) → String → Except ExpErr String
  | [], Option.none, acc => .ok acc
  | [], some _, _ => .error .valueError
  | '{' :: '{' :: cs, Option.none, acc => formatScan exp m cs Option.none (acc.push '{')
  | '}' :: '}' :: cs, Option.none, acc => formatScan exp m cs Option.none (acc.push '}')
  | '}' :: _, Option.none, _ => .error .valueError
  | '{' :: cs, Option.none, acc => formatScan exp m cs (some []) acc
  | '}' :: cs, some nameAcc, acc =>
    (match lookupLayers m (String.mk nameAcc.reverse) with
     | Option.none => .error (.keyError (String.mk nameAcc.reverse))
     | some (.str s) =>
       match exp s with
       | .error e => .error e
       | .ok t => formatScan exp m cs Option.none (acc ++ t)
     | some v => formatScan exp m cs Option.none (acc ++ pyFormat v))
  | c :: cs, Option.none, acc => formatScan exp m cs Option.none (acc.push c)
  | c :: cs, some nameAcc, acc => formatScan exp m cs (some (c :: nameAcc)) acc

/-- `Expander.expand` (gepare.py line 51): `s.format_map(self)`, where the
nested `self[name]` reads re-enter `expand`.  Each nesting level consumes
one unit of fuel, modelling the Python recursion limit; fuel zero is the
`RecursionError`. -/
def Expander_expand : Nat → Layers → String → Except ExpErr String
  | 0, _, _ => .error .recursionError
  | fuel + 1, m, s => formatScan (Expander_expand fuel m) m s.data Option.none ""

/-- `Expander.__getitem__` (gepare.py lines 38-40): resolve the raw value
in the scope; expand it when it is a str, return it unchanged
otherwise. -/
def Expander_getitem (fuel : Nat) (m : Layers) (k : String) : Except ExpErr Value :=
  match lookupLayers m k with
  | Option.none => .error (.keyError k)
  | some (.str s) => (Expander_expand fuel m s).map .str
  | some v => .ok v

/-- `Expander.get` (gepare.py lines 45-49): `self[key]`, with any
`KeyError` — from the key itself or from a placeholder missing anywhere
during expansion — replaced by the default.  Other errors propagate. -/
def Expander_get (fuel : Nat) (m : Layers) (k : String) (default : Value) :
    Except ExpErr Value :=
  match Expander_getitem fuel m k with
  | .error (.keyError _) => .ok default
  | r => r

/-- `shell_escape` (gepare.py lines 87-96), interpolatable branch: build
`['"']`, append a backslash before every double quote or backslash,
append each character, close with `'"'`, join.  Every call site in the
program uses this default branch; the `shlex.quote` branch for
`interpolatable=False` is never taken and is not modelled. -/
def shell_escape (s : String) : String :=
  String.mk ((s.data.foldl
    (fun r c => if c = '"' ∨ c = '\\' then r ++ ['\\', c] else r ++ [c])
    ['"']) ++ ['"'])

/-- The quoting format the specification prescribes for interpolated
paths: the string wrapped in double quotes with every double quote and
backslash preceded by a backslash.  Stated from the specification text,
to be compared with `shell_escape`. -/
def quotedSpec (s : String) : String :=
  "\"" ++ String.mk (s.data.foldr
    (fun c acc => if c = '"' ∨ c = '\\' then '\\' :: c :: acc else c :: acc)
    []) ++ "\""

/-- Split a character list at every slash. -/
def splitSlash : List Char → List (List Char)
  | [] => [[]]
  | c :: cs =>
    if c = '/' then [] :: splitSlash cs
    else match splitSlash cs with
      | h :: t => (c :: h) :: t
      | [] => [[c]]

/-- Join path components with slashes. -/
def joinSlash : List (List Char) → List Char
  | [] => []
  | [x] => x
  | x :: rest => x ++ '/' :: joinSlash rest

/-- `pathlib.PurePosixPath(p).parent` for the well-formed paths the
program handles (no `..` segments): drop the last component; the parent
of a single relative component is `"."`, the parent of a root-level
entry is `"/"`. -/
def path_parent (p : String) : String :=
  let comps := (splitSlash p.data).filter (fun c => c ≠ [])
  let isAbs := p.data.head? = some '/'
  match comps.dropLast with
  | [] => if isAbs then "/" else "."
  | par => String.mk ((if isAbs then ['/'] else []) ++ joinSlash par)

/-- `GitOrigin._bootstrap` (gepare.py lines 227-233): the four lines it
prints to standard output.  No VCS process is started; the operation only
emits text. -/
def gitBootstrapBody (remote loc : String) : List String :=
  [ "if test -d " ++ shell_escape loc,
    "then (cd " ++ shell_escape loc ++ " && git pull --rebase)",
    "else git clone " ++ shell_escape remote ++ " " ++ shell_escape loc,
    "fi" ]

/-- `Origin.bootstrap` (gepare.py lines 151-153): print the
`mkdir -p` line for the parent of the local path, then the lines of the
concrete `_bootstrap`. -/
def Origin_bootstrap (body : List String) (loc : String) : List String :=
  ("mkdir -p " ++ shell_escape (path_parent loc)) :: body

/-- Everything a git origin bootstrap prints, in order. -/
def gitOriginBootstrap (remote loc : String) : List String :=
  Origin_bootstrap (gitBootstrapBody remote loc) loc

/-- The result record of `subprocess.run`. -/
structure CompletedProcess where
  args : List String
  returncode : Int
  stdout : String
  stderr : String
  deriving Repr, DecidableEq

/-- `subprocess.CalledProcessError`, raised by `subprocess.run` when
`check=True` and the exit status is non-zero. -/
inductive RunErr where
  | calledProcessError (returncode : Int)
  deriving Repr, DecidableEq

/-- `subprocess.run(command, check=check, ...)` on a process whose outcome
is `p`: with `check` set, a non-zero exit raises
`CalledProcessError`. -/
def subprocess_run (check : Bool) (p : CompletedProcess) : Except RunErr CompletedProcess :=
  if check && p.returncode != 0 then .error (.calledProcessError p.returncode) else .ok p

/-- `Origin._runp` (gepare.py lines 200-203): runs the command with
`check=True`. -/
def Origin_runp (p : CompletedProcess) : Except RunErr CompletedProcess :=
  subprocess_run true p

/-- `Origin._run` (gepare.py lines 205-213): `_runp`, then (after
printing any captured output) `return p.returncode == 0`. -/
def Origin_run (p : CompletedProcess) : Except RunErr Bool :=
  match Origin_runp p with
  | .error e => .error e
  | .ok q => .ok (q.returncode == 0)

/-- A filesystem entry for the symlink-origin model: a directory or a
symbolic link. -/
inductive FsEntry where
  | dir : FsEntry
  | symlink (target : String) : FsEntry
  deriving Repr, DecidableEq

/-- A filesystem: paths with their entries. -/
abbrev Fs := List (String × FsEntry)

def fsLookup : Fs → String → Option FsEntry
  | [], _ => Option.none
  | (p0, e0) :: rest, p => if p0 = p then some e0 else fsLookup rest p

inductive FsErr where
  | fileExists
  deriving Repr, DecidableEq

/-- `Path.symlink_to`: make the path `p` a symbolic link pointing at
`target`; raises `FileExistsError` when `p` already exists. -/
def symlink_to (fs : Fs) (p target : String) : Except FsErr Fs :=
  if (fsLookup fs p).isSome then .error .fileExists
  else .ok (fs ++ [(p, .symlink target)])

/-- `Origin.check_local_is_available` (gepare.py lines 164-174): fail when
the local path already exists; otherwise create the parent directory if
missing (modelled as always succeeding, one level deep) and pass. -/
def check_local_is_available (fs : Fs) (loc : String) : Bool × Fs :=
  if (fsLookup fs loc).isSome then (false, fs)
  else if fsLookup fs (path_parent loc) = some .dir then (true, fs)
  else (true, fs ++ [(path_parent loc, FsEntry.dir)])

/-- `Origin.clone` specialised to `SymlinkOrigin` (gepare.py lines
145-146 and 301-302): run the availability check, then
`SymlinkOrigin._clone`, which executes `self.src.symlink_to(self.local)`
— the call that makes the REMOTE path a symlink pointing at the local
path.  `_clone` returns Python `None` (modelled `Option.none`); a failed
check returns `False`. -/
def symlinkClone (fs : Fs) (remote loc : String) : Except FsErr (Option Bool × Fs) :=
  let (avail, fs1) := check_local_is_available fs loc
  if avail then
    match symlink_to fs1 remote loc with
    | .error e => .error e
    | .ok fs2 => .ok (Option.none, fs2)
  else .ok (some false, fs1)

/-- The errors that abort `read_inputs` as a whole: the `TypeError` raised
for a `load` field of an unsupported kind, the `TypeError` raised by
`Path()` on a truthy non-string, an uncaught expansion error
(`ValueError` or `RecursionError`; `KeyError` is absorbed by
`Expander.get` before reaching here), and an uncaught `IndexError` from
the `ndget` template lookup. -/
inductive LoadErr where
  | loadTypeError (v : Value)
  | pathTypeError (v : Value)
  | expandError (e : ExpErr)
  | indexError
  deriving Repr, DecidableEq

/-- `read_inputs` load normalization (gepare.py lines 354-361):
`isinstance(load, (bool, list))` passes through, a str is promoted to a
one-element list, anything else raises `TypeError(load)`. -/
def normalizeLoad (load : Value) : Except LoadErr Value :=
  match load with
  | .bool b => .ok (.bool b)
  | .list l => .ok (.list l)
  | .str s => .ok (.list [.str s])
  | v => .error (.loadTypeError v)

/-- The origin registry `Origin.subclass` (gepare.py lines 129-137):
populated by `__init_subclass__` in class-definition order with the
names of `GitOrigin`, `MercurialOrigin` and `SymlinkOrigin`. -/
def originRegistry : List String := ["git", "hg", "ln"]

/-- The vcs-resolution block of `read_inputs` (gepare.py lines 375-391):
when the resolved `vcs` is not a str, infer `git` for a `src` ending in
`.git` or skip with the missing-vcs diagnostic; then look the kind up in
the registry, skipping with a diagnostic naming the kind when absent.
(The inferred `git` is always present in the registry, so the two source
steps collapse to this one match.)  Returns the diagnostics and, when the
package is to be constructed, the resolved kind. -/
def resolveVcs (nameV : Value) (src : String) (vcsV : Value) :
    List String × Option String :=
  match vcsV with
  | .str v =>
    if originRegistry.contains v then ([], some v)
    else ([pyFormat nameV ++ ": " ++ v ++ " is not a known source type."], Option.none)
  | _ =>
    if pyEndswith src ".git" then ([], some "git")
    else ([pyFormat nameV ++ ": missing ‘vcs’ key."], Option.none)

/-- The scope built for a package (gepare.py line 351):
`ChainMap` of the package layer, the properties, the template and `gcm`, with the
layers of `gcm` spliced in (probing a `ChainMap` used as a layer equals
probing its layers in order). -/
def pkgLayers (gcm : Layers) (tmpl : AList) (props : AList) : Layers :=
  [("package", Value.dict props)] :: props :: tmpl :: gcm

/-- Coerce a template table entry into a mapping layer.  `read_inputs`
defaults an unresolved template to `\x7b\x7d`; a template entry that is
not itself a table never occurs in well-formed configuration and is not
modelled. -/
def asAList : Value → AList
  | .dict m => m
  | _ => []

/-- The package record that `read_inputs` builds: the display name, the
resolved origin kind, and the origin remote (`src`) and local (`dst`)
paths.  (The `Expander` the Python `Package` also carries is the scope
the fields were read through; no verified claim reads it back.) -/
structure PackageR where
  name : Value
  vcs : String
  remote : String
  dst : String
  deriving Repr, DecidableEq

/-- One iteration of the package loop of `read_inputs` (gepare.py lines
342-391), for the entry `key` with table `props0`.  In source order:
set the `key` field, default the `name` field, resolve the
template layer with `ndget` (whose uncaught `IndexError`, were one ever
raised, would abort the load), read and normalize `load` (a `TypeError`
here aborts the whole load), resolve `dst` (defaulting to `cwd/name` and
recording the default), then `src` and `vcs`, skipping the package with a
diagnostic when `src` is missing or the kind cannot be resolved.  Each
read goes through `Expander.get` over the package scope, rebuilt from the
current state of `properties` to model its in-place mutation.  (The
write of the inferred `vcs` back into `properties` is not observed by
anything modelled and is omitted.)  Returns the diagnostics emitted for
this entry and the constructed package, if any. -/
def processPackage (fuel : Nat) (cwd : String) (gcm : Layers) (config : Value)
    (key : String) (props0 : AList) :
    Except LoadErr (List String × Option PackageR) :=
  let p1 := upsert props0 "key" (.str key)
  let nameV := (alookup p1 "name").getD (.str key)
  let p2 := match alookup p1 "name" with
    | some _ => p1
    | Option.none => upsert p1 "name" (.str key)
  match (match alookup p2 "template" with
         | some tv => ndget config [.str "template", tv] (.dict [])
         | Option.none => Except.ok (.dict [])) with
  | .error _ => .error .indexError
  | .ok tmplV =>
  let tmpl : AList := asAList tmplV
  match Expander_get fuel (pkgLayers gcm tmpl p2) "load" (.bool true) with
  | .error e => .error (.expandError e)
  | .ok loadRaw =>
  match normalizeLoad loadRaw with
  | .error e => .error e
  | .ok loadN =>
  let p3 := upsert p2 "load" loadN
  match Expander_get fuel (pkgLayers gcm tmpl p3) "dst" .none with
  | .error e => .error (.expandError e)
  | .ok dV =>
  match (if truthy dV then
           match dV with
           | .str s => Except.ok (s, p3)
           | v => Except.error (LoadErr.pathTypeError v)
         else
           match nameV with
           | .str n => Except.ok (cwd ++ "/" ++ n, upsert p3 "dst" (.str (cwd ++ "/" ++ n)))
           | v => Except.error (LoadErr.pathTypeError v)) with
  | .error e => .error e
  | .ok (dst, p4) =>
  match Expander_get fuel (pkgLayers gcm tmpl p4) "src" .none with
  | .error e => .error (.expandError e)
  | .ok srcV =>
  match srcV with
  | .str src =>
    (match Expander_get fuel (pkgLayers gcm tmpl p4) "vcs" .none with
     | .error e => .error (.expandError e)
     | .ok vcsV =>
       match resolveVcs nameV src vcsV with
       | (diags, Option.none) => .ok (diags, Option.none)
       | (diags, some vcs) =>
         .ok (diags, some { name := nameV, vcs := vcs, remote := src, dst := dst }))
  | _ => .ok ([pyFormat nameV ++ ": missing ‘src’ key."], Option.none)

/-- The whole package loop of `read_inputs`: the entries of the `package`
table in order.  A skipped package contributes only its diagnostics and
the loop continues; a `LoadErr` aborts everything. -/
def readPackages (fuel : Nat) (cwd : String) (gcm : Layers) (config : Value) :
    List (String × AList) → Except LoadErr (List (String × PackageR) × List String)
  | [] => .ok ([], [])
  | (key, props) :: rest =>
    match processPackage fuel cwd gcm config key props with
    | .error e => .error e
    | .ok (diags, pkgOpt) =>
      match readPackages fuel cwd gcm config rest with
      | .error e => .error e
      | .ok (pkgs, laterDiags) =>
        .ok ((match pkgOpt with
              | some pkg => (key, pkg) :: pkgs
              | Option.none => pkgs), diags ++ laterDiags)

/-! ## Theorems -/

/-- The scope of the expansion round-trip property. -/
def scopeABC : Layers := [[("a", .str "A"), ("b", .str "{a}-{a}"), ("c", .str "{b}={b}")]]

/-- A scope with a self-referential placeholder chain. -/
def scopeSelf : Layers := [[("a", .str "{a}")]]

/-- A scope with a mutually recursive placeholder chain. -/
def scopeMutual : Layers := [[("a", .str "{b}"), ("b", .str "{a}")]]

/-- A scope whose key expands through a placeholder absent from the scope. -/
def scopeMissingDirect : Layers := [[("a", .str "{zzz}")]]

/-- A scope whose key reaches a missing placeholder only transitively. -/
def scopeMissingTrans : Layers := [[("a", .str "{b}"), ("b", .str "{zzz}")]]

theorem escape_fold (cs : List Char) : ∀ r : List Char,
    cs.foldl (fun r c => if c = '"' ∨ c = '\\' then r ++ ['\\', c] else r ++ [c]) r
      = r ++ cs.foldr (fun c acc => if c = '"' ∨ c = '\\' then '\\' :: c :: acc else c :: acc) [] := by
  induction cs with
  | nil => intro r; simp
  | cons c cs ih =>
    intro r
    by_cases hc : (c = '"' ∨ c = '\\') <;> simp [hc, ih, List.append_assoc]

theorem shell_escape_eq_quotedSpec (s : String) : shell_escape s = quotedSpec s := by
  have h := escape_fold s.data ['"']
  apply String.ext
  simp [shell_escape, quotedSpec, h, String.data_append]

/-- Claim C1 (amended): `ndupdate` merges the source into the destination
per key: an absent key is inserted; two dicts merge recursively (and a
nested conflict propagates); a list destination is extended by a list
source, and also — amending the claim — by a str source, which
contributes its characters rather than raising; two sets union (as a
membership union); two values of the exact same concrete scalar kind
replace; every remaining kind combination raises a `TypeError` naming
the key and the two values.  Merging `\x7ba:\x7bx:[1]\x7d\x7d` then
`\x7ba:\x7bx:[2]\x7d\x7d` into the empty dict yields
`\x7ba:\x7bx:[1,2]\x7d\x7d`. -/
theorem ndupdate_deep_merge_rules
    (d dm vm m2 : AList) (k : String) (v dk : Value)
    (dl vl da sa : List Value) (s1 s2 : String) (e : MergeErr)
    (n1 n2 : Int) (b1 b2 : Bool) :
    (alookup d k = Option.none → ndupdate d [(k, v)] = .ok (d ++ [(k, v)]))
  ∧ (alookup d k = some (.dict dm) → ndupdate dm vm = .ok m2 →
      ndupdate d [(k, .dict vm)] = .ok (upsert d k (.dict m2)))
  ∧ (alookup d k = some (.dict dm) → ndupdate dm vm = .error e →
      ndupdate d [(k, .dict vm)] = .error e)
  ∧ (alookup d k = some (.list dl) →
      ndupdate d [(k, .list vl)] = .ok (upsert d k (.list (dl ++ vl))))
  ∧ (alookup d k = some (.list dl) →
      ndupdate d [(k, .str s2)] =
        .ok (upsert d k (.list (dl ++ s2.data.map (fun c => Value.str (String.mk [c]))))))
  ∧ (alookup d k = some (.set da) →
      ndupdate d [(k, .set sa)] = .ok (upsert d k (.set (setUnion da sa))))
  ∧ (∀ x, x ∈ setUnion da sa ↔ x ∈ da ∨ x ∈ sa)
  ∧ (alookup d k = some (.str s1) → ndupdate d [(k, .str s2)] = .ok (upsert d k (.str s2)))
  ∧ (alookup d k = some (.int n1) → ndupdate d [(k, .int n2)] = .ok (upsert d k (.int n2)))
  ∧ (alookup d k = some (.bool b1) → ndupdate d [(k, .bool b2)] = .ok (upsert d k (.bool b2)))
  ∧ (alookup d k = some dk → mergeCompatible dk v = false →
      ndupdate d [(k, v)] = .error (.typeError k dk v))
  ∧ (ndupdate [] [("a", .dict [("x", .list [.int 1])])]
        = .ok [("a", .dict [("x", .list [.int 1])])]
      ∧ ndupdate [("a", .dict [("x", .list [.int 1])])] [("a", .dict [("x", .list [.int 2])])]
        = .ok [("a", .dict [("x", .list [.int 1, .int 2])])]) := by
  refine ⟨?_, ?_, ?_, ?_, ?_, ?_, ?_, ?_, ?_, ?_, ?_, ?_, ?_⟩
  · intro h; simp [ndupdate, h]
  · intro h1 h2; simp [ndupdate, h1, h2]
  · intro h1 h2; simp [ndupdate, h1, h2]
  · intro h; simp [ndupdate, h]
  · intro h; simp [ndupdate, h]
  · intro h; simp [ndupdate, h]
  · intro x
    by_cases hx : x ∈ da <;> simp [setUnion, List.mem_filter, hx]
  · intro h; simp [ndupdate, h, sameType]
  · intro h; simp [ndupdate, h, sameType]
  · intro h; simp [ndupdate, h, sameType]
  · intro h hmc
    cases dk <;> cases v <;> simp_all [ndupdate, mergeCompatible, sameType]
  · simp [ndupdate, alookup, upsert]
  · simp [ndupdate, alookup, upsert]

theorem ndupdate_deep_merge_rules_witness :
    ndupdate [("a", .int 1)] [("b", .bool true)] = .ok [("a", .int 1), ("b", .bool true)]
  ∧ ndupdate [("k", .set [.int 1])] [("k", .set [])] = .ok [("k", .set [.int 1])]
  ∧ ndupdate [("k", .dict [("x", .int 1)])] [("k", .int 7)]
      = .error (.typeError "k" (.dict [("x", .int 1)]) (.int 7)) :=
  ⟨(ndupdate_deep_merge_rules [("a", .int 1)] [] [] [] "b" (.bool true) .none
      [] [] [] [] "" "" (.typeError "" .none .none) 0 0 true true).1 (by decide),
   (ndupdate_deep_merge_rules [("k", .set [.int 1])] [] [] [] "k" .none .none
      [] [] [.int 1] [] "" "" (.typeError "" .none .none) 0 0 true true).2.2.2.2.2.1 (by decide),
   (ndupdate_deep_merge_rules [("k", .dict [("x", .int 1)])] [] [] [] "k" (.int 7)
      (.dict [("x", .int 1)]) [] [] [] [] "" "" (.typeError "" .none .none) 0 0 true true
     ).2.2.2.2.2.2.2.2.2.2.1 (by decide) (by decide)⟩

/-- Claim C1, counterexample to the claim as stated: merging a str source
into a list destination is a kind combination outside the rules the
claim enumerates (both mappings, both sequences, both sets, or the same
concrete kind), so by the claim it would have to raise an error naming
the key — but the code returns successfully, extending the list with the
characters of the str. -/
theorem ndupdate_list_string_no_error :
    ndupdate [("k", .list [.int 1])] [("k", .str "ab")]
      = .ok [("k", .list [.int 1, .str "a", .str "b"])] := by
  simp [ndupdate, alookup, upsert]

/-- Claim C2: reading a key through the `Expander` returns the raw value
unchanged when it is not a str; a str value is treated as a template and
expanded by substituting every placeholder with the expansion of the
referenced key looked up through the same `Expander`; in particular for
the scope `\x7ba:"A", b:"\x7ba\x7d-\x7ba\x7d", c:"\x7bb\x7d=\x7bb\x7d"\x7d`,
reading `c` yields `"A-A=A-A"`. -/
theorem expander_get_expansion :
    (∀ (fuel : Nat) (m : Layers) (k : String) (v : Value),
        lookupLayers m k = some v → (∀ s, v ≠ .str s) →
        Expander_getitem fuel m k = .ok v)
  ∧ (∀ (fuel : Nat) (m : Layers) (k : String) (s : String),
        lookupLayers m k = some (.str s) →
        Expander_getitem (fuel + 1) m k =
          (formatScan (Expander_expand fuel m) m s.data Option.none "").map .str)
  ∧ Expander_getitem 10 scopeABC "c" = .ok (.str "A-A=A-A") := by
  refine ⟨?_, ?_, by decide⟩
  · intro fuel m k v h hv
    cases v with
    | str s => exact absurd rfl (hv s)
    | none => simp [Expander_getitem, h]
    | bool b => simp [Expander_getitem, h]
    | int n => simp [Expander_getitem, h]
    | list l => simp [Expander_getitem, h]
    | set l => simp [Expander_getitem, h]
    | dict m2 => simp [Expander_getitem, h]
  · intro fuel m k s h
    simp [Expander_getitem, h, Expander_expand]

theorem expander_get_expansion_witness :
    Expander_getitem 3 [[("x", .int 5)]] "x" = .ok (.int 5)
  ∧ Expander_getitem 10 scopeABC "c" =
      (formatScan (Expander_expand 9 scopeABC) scopeABC ("{b}={b}").data
        Option.none "").map .str :=
  ⟨expander_get_expansion.1 3 [[("x", .int 5)]] "x" (.int 5) (by decide)
      (fun s h => Value.noConfusion h),
   expander_get_expansion.2.1 9 scopeABC "c" "{b}={b}" (by decide)⟩

theorem expand_self_loop : ∀ fuel,
    Expander_expand fuel scopeSelf "{a}" = .error .recursionError := by
  intro fuel
  induction fuel with
  | zero => simp [Expander_expand]
  | succ n ih =>
    have ih2 : Expander_expand n [[("a", Value.str "{a}")]] "{a}"
        = .error .recursionError := by simpa [scopeSelf] using ih
    simp [Expander_expand, formatScan, lookupLayers, alookup, scopeSelf, ih2]

theorem expand_mutual_loop : ∀ fuel,
    Expander_expand fuel scopeMutual "{a}" = .error .recursionError
  ∧ Expander_expand fuel scopeMutual "{b}" = .error .recursionError := by
  intro fuel
  induction fuel with
  | zero => simp [Expander_expand]
  | succ n ih =>
    have iha : Expander_expand n [[("a", Value.str "{b}"), ("b", Value.str "{a}")]] "{a}"
        = .error .recursionError := by simpa [scopeMutual] using ih.1
    have ihb : Expander_expand n [[("a", Value.str "{b}"), ("b", Value.str "{a}")]] "{b}"
        = .error .recursionError := by simpa [scopeMutual] using ih.2
    refine ⟨?_, ?_⟩
    · simp [Expander_expand, formatScan, lookupLayers, alookup, scopeMutual, ihb]
    · simp [Expander_expand, formatScan, lookupLayers, alookup, scopeMutual, iha]

/-- Claim C3: in a scope with a self-referential or mutually recursive
placeholder chain, reading an affected key through the `Expander` fails
with the `RecursionError` signal for every recursion budget — the fuel
models the Python recursion limit, so the read reports the error after a
bounded depth instead of running forever. -/
theorem expander_cycle_recursion_error :
    (∀ fuel, Expander_getitem fuel scopeSelf "a" = .error .recursionError)
  ∧ (∀ fuel, Expander_getitem fuel scopeMutual "a" = .error .recursionError)
  ∧ (∀ fuel, Expander_getitem fuel scopeMutual "b" = .error .recursionError) := by
  refine ⟨?_, ?_, ?_⟩
  · intro fuel
    have h2 : Expander_expand fuel [[("a", Value.str "{a}")]] "{a}"
        = .error .recursionError := by simpa [scopeSelf] using expand_self_loop fuel
    simp [Expander_getitem, scopeSelf, lookupLayers, alookup, h2, Except.map]
  · intro fuel
    have h2 : Expander_expand fuel [[("a", Value.str "{b}"), ("b", Value.str "{a}")]] "{b}"
        = .error .recursionError := by simpa [scopeMutual] using (expand_mutual_loop fuel).2
    simp [Expander_getitem, scopeMutual, lookupLayers, alookup, h2, Except.map]
  · intro fuel
    have h2 : Expander_expand fuel [[("a", Value.str "{b}"), ("b", Value.str "{a}")]] "{a}"
        = .error .recursionError := by simpa [scopeMutual] using (expand_mutual_loop fuel).1
    simp [Expander_getitem, scopeMutual, lookupLayers, alookup, h2, Except.map]

/-- Claim C4: the `load` field is normalized during loading: unset (absent
from every scope layer) defaults to `True`; a bool or a list passes
through unchanged; a str becomes a one-element list; any other kind —
the integer 1 for instance — raises the fatal `TypeError` that aborts
the whole load, as the loop run over three packages shows: the error of
the second package discards the first and third as well. -/
theorem load_field_normalization :
    (∀ b, normalizeLoad (.bool b) = .ok (.bool b))
  ∧ (∀ l, normalizeLoad (.list l) = .ok (.list l))
  ∧ (∀ s, normalizeLoad (.str s) = .ok (.list [.str s]))
  ∧ (∀ n : Int, normalizeLoad (.int n) = .error (.loadTypeError (.int n)))
  ∧ (∀ (fuel : Nat) (m : Layers), lookupLayers m "load" = Option.none →
      Expander_get fuel m "load" (.bool true) = .ok (.bool true))
  ∧ readPackages 10 "/cwd" [] (.dict [])
      [("a", [("src", .str "h.git")]),
       ("b", [("src", .str "h.git"), ("load", .int 1)]),
       ("c", [("src", .str "h.git")])]
    = .error (.loadTypeError (.int 1)) := by
  refine ⟨fun b => rfl, fun l => rfl, fun s => rfl, fun n => rfl, ?_, by decide⟩
  intro fuel m h
  simp [Expander_get, Expander_getitem, h]

theorem load_field_normalization_witness :
    Expander_get 3 [[("x", .int 1)]] "load" (.bool true) = .ok (.bool true) :=
  load_field_normalization.2.2.2.2.1 3 [[("x", .int 1)]] (by decide)

/-- Claim C5: for a package whose resolved `src` is a str and whose `vcs`
is unset (not a str): a `src` ending in `.git` resolves the kind to
`git`; any other `src` skips only that package with a diagnostic
containing `vcs`.  A `vcs` naming a kind outside the origin registry
skips the package with a diagnostic naming that kind.  The loop run
shows a skipped package leaves the remaining packages loaded: the first
entry is skipped with the missing-vcs diagnostic while the second is
constructed with kind `git`. -/
theorem vcs_inference_and_skip :
    (∀ (nameV vcsV : Value) (src : String), (∀ s, vcsV ≠ .str s) →
        pyEndswith src ".git" = true →
        resolveVcs nameV src vcsV = ([], some "git"))
  ∧ (∀ (n : String) (vcsV : Value) (src : String), (∀ s, vcsV ≠ .str s) →
        pyEndswith src ".git" = false →
        resolveVcs (.str n) src vcsV = ([n ++ ": missing ‘vcs’ key."], Option.none)
        ∧ ∃ pre post, n ++ ": missing ‘vcs’ key." = pre ++ "vcs" ++ post)
  ∧ (∀ (n v src : String), originRegistry.contains v = false →
        resolveVcs (.str n) src (.str v)
          = ([n ++ ": " ++ v ++ " is not a known source type."], Option.none)
        ∧ ∃ pre post,
            n ++ ": " ++ v ++ " is not a known source type." = pre ++ v ++ post)
  ∧ readPackages 10 "/cwd" [] (.dict [])
      [("bad", [("src", .str "http://e/")]),
       ("good", [("src", .str "h.git")])]
    = .ok ([("good", { name := .str "good", vcs := "git", remote := "h.git",
                       dst := "/cwd/good" })],
           ["bad: missing ‘vcs’ key."]) := by
  refine ⟨?_, ?_, ?_, by decide⟩
  · intro nameV vcsV src hv hgit
    cases vcsV with
    | str s => exact absurd rfl (hv s)
    | none => simp [resolveVcs, hgit]
    | bool b => simp [resolveVcs, hgit]
    | int n => simp [resolveVcs, hgit]
    | list l => simp [resolveVcs, hgit]
    | set l => simp [resolveVcs, hgit]
    | dict m => simp [resolveVcs, hgit]
  · intro n vcsV src hv hgit
    have hdiag : ∃ pre post, n ++ ": missing ‘vcs’ key." = pre ++ "vcs" ++ post := by
      refine ⟨n ++ ": missing ‘", "’ key.", ?_⟩
      simp only [String.append_assoc]
      congr 1
    refine ⟨?_, hdiag⟩
    cases vcsV with
    | str s => exact absurd rfl (hv s)
    | none => simp [resolveVcs, hgit, pyFormat]
    | bool b => simp [resolveVcs, hgit, pyFormat]
    | int n2 => simp [resolveVcs, hgit, pyFormat]
    | list l => simp [resolveVcs, hgit, pyFormat]
    | set l => simp [resolveVcs, hgit, pyFormat]
    | dict m => simp [resolveVcs, hgit, pyFormat]
  · intro n v src hreg
    simp at hreg
    refine ⟨by simp [resolveVcs, hreg, pyFormat], ⟨n ++ ": ", " is not a known source type.", rfl⟩⟩

theorem vcs_inference_and_skip_witness :
    resolveVcs .none "x.git" .none = ([], some "git")
  ∧ resolveVcs (.str "p") "http://e/" .none
      = (["p: missing ‘vcs’ key."], Option.none)
  ∧ resolveVcs (.str "p") "u" (.str "wtf")
      = (["p: wtf is not a known source type."], Option.none) :=
  ⟨vcs_inference_and_skip.1 .none .none "x.git" (fun s h => Value.noConfusion h) (by decide),
   (vcs_inference_and_skip.2.1 "p" .none "http://e/" (fun s h => Value.noConfusion h)
      (by decide)).1,
   (vcs_inference_and_skip.2.2.1 "p" "wtf" "u" (by decide)).1⟩

/-- Claim C6: evaluation of `SymlinkOrigin.clone` at concrete
filesystems.  The claim says the local path becomes a symbolic link
pointing at the remote and the remote is untouched; the code instead
executes `self.src.symlink_to(self.local)`, which tries to make the
REMOTE path a link pointing at the local path — raising
`FileExistsError` whenever the remote (the master directory) exists, and
otherwise creating the remote as a link at the local path while the
local path never comes into being. -/
theorem symlink_clone_reversed :
    symlinkClone [("/", .dir), ("/master", .dir)] "/master" "/pkg" = .error .fileExists
  ∧ symlinkClone [("/", .dir)] "/master" "/pkg"
      = .ok (Option.none, [("/", .dir), ("/master", .symlink "/pkg")])
  ∧ fsLookup [("/", .dir), ("/master", .symlink "/pkg")] "/pkg" = Option.none
  ∧ fsLookup [("/", .dir), ("/master", .symlink "/pkg")] "/master"
      = some (.symlink "/pkg") := by
  refine ⟨by decide, by decide, by decide, by decide⟩

/-- Claim C7: a git origin bootstrap performs no VCS action and prints
exactly the `mkdir -p` line for the parent of the local path followed by
the four-line clone-or-update conditional, each interpolated path or URL
wrapped in double quotes in which every double quote and backslash is
preceded by a backslash (`shell_escape` agrees everywhere with the
quoting the specification prescribes). -/
theorem git_bootstrap_emission :
    (∀ s, shell_escape s = quotedSpec s)
  ∧ (∀ remote loc, gitOriginBootstrap remote loc =
      [ "mkdir -p " ++ quotedSpec (path_parent loc),
        "if test -d " ++ quotedSpec loc,
        "then (cd " ++ quotedSpec loc ++ " && git pull --rebase)",
        "else git clone " ++ quotedSpec remote ++ " " ++ quotedSpec loc,
        "fi" ])
  ∧ gitOriginBootstrap "remote" "/usr/local/src/test" =
      [ "mkdir -p \"/usr/local/src\"",
        "if test -d \"/usr/local/src/test\"",
        "then (cd \"/usr/local/src/test\" && git pull --rebase)",
        "else git clone \"remote\" \"/usr/local/src/test\"",
        "fi" ]
  ∧ shell_escape "a\"b\\c" = "\"a\\\"b\\\\c\"" := by
  refine ⟨shell_escape_eq_quotedSpec, ?_, by decide, by decide⟩
  intro remote loc
  simp [gitOriginBootstrap, Origin_bootstrap, gitBootstrapBody, shell_escape_eq_quotedSpec]

/-- Claim C8: evaluation of `Origin._run` at a failing process.  The
claim says a non-zero exit of the invoked tool surfaces as the boolean
`False` with the run continuing; the code passes `check=True` to
`subprocess.run`, so a non-zero exit raises `CalledProcessError` instead
and `Origin._run` can never return `False` — its final
`returncode == 0` test is unreachable dead code on failures. -/
theorem run_nonzero_exit_raises :
    Origin_run { args := ["git", "clone", "r", "l"], returncode := 1,
                 stdout := "", stderr := "fatal" }
      = .error (.calledProcessError 1)
  ∧ (∀ p : CompletedProcess, p.returncode ≠ 0 →
      Origin_run p = .error (.calledProcessError p.returncode))
  ∧ (∀ p : CompletedProcess, Origin_run p ≠ .ok false) := by
  refine ⟨by decide, ?_, ?_⟩
  · intro p h
    simp [Origin_run, Origin_runp, subprocess_run, h]
  · intro p
    by_cases h : p.returncode = 0 <;>
      simp [Origin_run, Origin_runp, subprocess_run, h]

theorem run_nonzero_exit_raises_witness :
    Origin_run { args := ["hg", "pull", "-u"], returncode := 255,
                 stdout := "", stderr := "abort" }
      = .error (.calledProcessError 255) :=
  run_nonzero_exit_raises.2.1
    { args := ["hg", "pull", "-u"], returncode := 255, stdout := "", stderr := "abort" }
    (by decide)

/-- Claim C9, counterexample to the claim as stated: `ndget` is not
total.  The int key 1 equals an element of the intermediate list `[1]`,
so the `k not in t` guard passes — `in` on a list is element
membership, not index validity — and the subsequent indexing `[1][1]`
raises an `IndexError` that the `except (KeyError, TypeError)` clause
does not catch, so it escapes to the caller instead of becoming the
default. -/
theorem ndget_index_error :
    ndget (.dict [("a", .list [.int 1])]) [.str "a", .int 1] (.str "dflt")
      = .error .indexError := by decide

/-- Claim C9 (amended): `ndget` absorbs `KeyError` and `TypeError` into
the default — the empty key sequence returns the current value, a
present dict key descends, and an absent dict key, a non-str key on a
dict, a scalar, str or set intermediate, and a non-member key on a list
all return the default — but on a list intermediate an int key that
equals an element passes the membership guard and is then used as an
index: it descends by position when the index is valid and raises an
uncaught `IndexError` when it is not. -/
theorem ndget_characterization :
    (∀ (t default : Value), ndget t [] default = .ok t)
  ∧ (∀ (m : AList) (k : String) (ks : List Value) (default v : Value),
      alookup m k = some v → ndget (.dict m) (.str k :: ks) default = ndget v ks default)
  ∧ (∀ (m : AList) (k : String) (ks : List Value) (default : Value),
      alookup m k = Option.none → ndget (.dict m) (.str k :: ks) default = .ok default)
  ∧ (∀ (m : AList) (k : Value) (ks : List Value) (default : Value),
      (∀ s, k ≠ .str s) → ndget (.dict m) (k :: ks) default = .ok default)
  ∧ (∀ (t k : Value) (ks : List Value) (default : Value),
      (∀ m, t ≠ .dict m) → (∀ l, t ≠ .list l) → ndget t (k :: ks) default = .ok default)
  ∧ (∀ (l : List Value) (n : Int) (ks : List Value) (default v : Value),
      Value.int n ∈ l → listIndex l n = some v →
      ndget (.list l) (.int n :: ks) default = ndget v ks default)
  ∧ (∀ (l : List Value) (n : Int) (ks : List Value) (default : Value),
      Value.int n ∈ l → listIndex l n = Option.none →
      ndget (.list l) (.int n :: ks) default = .error .indexError)
  ∧ (∀ (l : List Value) (n : Int) (ks : List Value) (default : Value),
      ¬ Value.int n ∈ l → ndget (.list l) (.int n :: ks) default = .ok default)
  ∧ ndget (.dict [("v0", .int 0), ("d0", .dict [("d1", .dict [("v2", .int 2)])])])
      [.str "d0", .str "d1", .str "v2"] .none = .ok (.int 2)
  ∧ ndget (.dict [("v0", .int 0)]) [.str "v0", .str "v1"] (.str "dflt") = .ok (.str "dflt")
  ∧ ndget (.dict [("a", .list [.int 0])]) [.str "a", .int 0] (.str "dflt")
      = .ok (.int 0) := by
  refine ⟨?_, ?_, ?_, ?_, ?_, ?_, ?_, ?_, by decide, by decide, by decide⟩
  · intro t default
    cases t <;> rfl
  · intro m k ks default v h
    simp [ndget, h]
  · intro m k ks default h
    simp [ndget, h]
  · intro m k ks default hk
    cases k with
    | str s => exact absurd rfl (hk s)
    | none => rfl
    | bool b => rfl
    | int n => rfl
    | list l => rfl
    | set l => rfl
    | dict m2 => rfl
  · intro t k ks default ht hl
    cases t with
    | dict m => exact absurd rfl (ht m)
    | list l => exact absurd rfl (hl l)
    | none => rfl
    | bool b => rfl
    | int n => rfl
    | str s => rfl
    | set l => rfl
  · intro l n ks default v hmem hidx
    simp [ndget, hmem, hidx]
  · intro l n ks default hmem hidx
    simp [ndget, hmem, hidx]
  · intro l n ks default hmem
    simp [ndget, hmem]

theorem ndget_characterization_witness :
    ndget (.dict [("d0", .dict [("v1", .int 7)])]) [.str "d0", .str "v1"] .none
      = ndget (.dict [("v1", .int 7)]) [.str "v1"] .none
  ∧ ndget (.int 3) [.str "k"] (.str "dflt") = .ok (.str "dflt")
  ∧ ndget (.list [.int 0]) [.int 0] (.str "dflt") = ndget (.int 0) [] (.str "dflt") :=
  ⟨ndget_characterization.2.1 [("d0", .dict [("v1", .int 7)])] "d0" [.str "v1"] .none
      (.dict [("v1", .int 7)]) (by decide),
   ndget_characterization.2.2.2.2.1 (.int 3) (.str "k") [] (.str "dflt")
      (fun m h => Value.noConfusion h) (fun l h => Value.noConfusion h),
   ndget_characterization.2.2.2.2.2.1 [.int 0] 0 [] (.str "dflt") (.int 0)
      (by decide) (by decide)⟩

/-- Claim C10: `Expander.get` returns the default not only for a key
absent from the scope but also when the key maps to a str whose
expansion refers — directly or transitively — to a placeholder absent
from the scope: a `KeyError` can never escape from `Expander.get`. -/
theorem expander_get_swallows_keyerror :
    (∀ (fuel : Nat) (m : Layers) (k : String) (d : Value) (e : String),
        Expander_get fuel m k d ≠ .error (.keyError e))
  ∧ (∀ d, Expander_get 5 scopeMissingDirect "a" d = .ok d)
  ∧ (∀ d, Expander_get 5 scopeMissingTrans "a" d = .ok d)
  ∧ (∀ d, Expander_get 5 scopeMissingDirect "absent" d = .ok d) := by
  refine ⟨?_, ?_, ?_, ?_⟩
  · intro fuel m k d e
    cases h : Expander_getitem fuel m k with
    | ok v => simp [Expander_get, h]
    | error e2 => cases e2 <;> simp [Expander_get, h]
  · intro d
    have h : Expander_getitem 5 scopeMissingDirect "a" = .error (.keyError "zzz") := by decide
    simp [Expander_get, h]
  · intro d
    have h : Expander_getitem 5 scopeMissingTrans "a" = .error (.keyError "zzz") := by decide
    simp [Expander_get, h]
  · intro d
    have h : Expander_getitem 5 scopeMissingDirect "absent"
        = .error (.keyError "absent") := by decide
    simp [Expander_get, h]

end Gepare
